import Mathlib

/-!
# Verification of the document-level re-ranking core of `pcr_services.py`

This file gives a shallow embedding of the two functions
`get_top_n_document_fids` and `get_pcr_records_from_chroma` from
`src/pcr_services.py` and proves the specified properties about them.

Modelling conventions:
* A Python `dict[str, str]` metadata mapping is an association list with
  first-binding lookup (Python dicts have unique keys, so this agrees).
* `collections.Counter(xs)` iterated via `.items()` yields the distinct
  elements in first-insertion order, each with its multiplicity; `counter`
  below is exactly that observable behaviour.
* `Counter.most_common(n)` is `heapq.nlargest(n, items, key=count)`, i.e. a
  stable sort by count descending followed by `take n`; it is modelled by a
  stable insertion sort with relation `fun p q => q.2 ≤ p.2`.
* Python truthiness of `metadata.get("fid")` (both a missing key and an empty
  string are falsy) is modelled by `truthyFid`.
* The upstream `db.similarity_search` collaborator is a parameter returning
  `Except PyExc (List Document)`; a raised Python exception is a `PyExc`
  carrying its type name and its `str(e)` message.  The embedding of
  `get_pcr_records_from_chroma` additionally returns the list of
  `(query, k)` calls it issued to the collaborator, so that "the upstream
  index is never invoked" and "no retry" are provable statements.
-/

namespace ESGBot

/-- A chunk's metadata: a string-keyed mapping (Python `dict`). -/
abbrev Metadata := List (String × String)

/-- `metadata.get(key)`: first binding of the key, `None` when absent. -/
def Metadata.get (m : Metadata) (k : String) : Option String :=
  List.lookup k m

/-- A langchain `Document`: `page_content` text plus `metadata`. -/
structure Document where
  page_content : String
  metadata : Metadata
  deriving DecidableEq

/-- `doc.metadata.get("fid")` filtered through Python truthiness:
a missing key and the empty string are both falsy. -/
def truthyFid (d : Document) : Option String :=
  match Metadata.get d.metadata "fid" with
  | none => none
  | some s => if s = "" then none else some s

/-- The `PCRRecord` pydantic model as built by
`PCRRecord(**chunk.metadata, page_contents=[])`: the descriptive fields are
captured wholesale from the originating chunk's metadata; `page_content`
holds the aggregated text, `page_contents` the accumulated chunk texts. -/
structure PCRRecord where
  metadata : Metadata
  page_content : Option String := none
  page_contents : List String := []
  deriving DecidableEq

/-- The record's `fid` field as set by `PCRRecord(**chunk.metadata, ...)`. -/
def PCRRecord.fid (r : PCRRecord) : Option String :=
  Metadata.get r.metadata "fid"

/-- Distinct elements of a list in first-occurrence order: the key sequence
of a `collections.Counter` built by a single left-to-right pass. -/
def firstOccDedup : List String → List String
  | [] => []
  | x :: xs => x :: (firstOccDedup xs).filter (fun y => y != x)

/-- `collections.Counter(xs).items()`: the distinct elements in
first-insertion order, paired with their multiplicities. -/
def counter (xs : List String) : List (String × Nat) :=
  (firstOccDedup xs).map (fun a => (a, xs.count a))

/-- The comparison used to model `most_common` / `heapq.nlargest` with
`key=itemgetter(1)`: descending by count. -/
def countGE (p q : String × Nat) : Prop := q.2 ≤ p.2

instance : DecidableRel countGE := fun p q => Nat.decLe q.2 p.2

/-- `Counter.most_common(n)`: stable sort by count descending, first `n`. -/
def most_common (l : List (String × Nat)) (n : Nat) : List (String × Nat) :=
  (List.insertionSort countGE l).take n

/-- Embedding of `get_top_n_document_fids` (`pcr_services.py`, lines 166-185):
extract the truthy `fid`s, count occurrences, take the `top_n` most common,
return the fids. -/
def get_top_n_document_fids (chunks : List Document) (top_n : Nat) : List String :=
  let fids := chunks.filterMap truthyFid
  let fid_counts := counter fids
  let top_ids_with_counts := most_common fid_counts top_n
  top_ids_with_counts.map Prod.fst

/-- The fixed separator joined between a document's chunk texts
(`pcr_services.py`, line 134). -/
def chunk_separator : String := "\n\n--- 文件內文本塊分隔線 ---\n\n"

/-- Specification vocabulary: the candidate passages attributable to a
given `fid` — those whose truthy metadata fid equals it — in the order
they appear in the candidate list. -/
def fidHits (chunks : List Document) (fid : String) : List Document :=
  chunks.filter (fun c => truthyFid c == some fid)

/-- A raised Python exception: its type name and its `str(e)` message. -/
structure PyExc where
  ty : String
  msg : String
  deriving DecidableEq

instance {α : Type} [DecidableEq α] : DecidableEq (Except PyExc α) := fun a b =>
  match a, b with
  | Except.ok x, Except.ok y =>
    if h : x = y then isTrue (by rw [h]) else isFalse (by simp [h])
  | Except.error x, Except.error y =>
    if h : x = y then isTrue (by rw [h]) else isFalse (by simp [h])
  | Except.ok _, Except.error _ => isFalse (by simp)
  | Except.error _, Except.ok _ => isFalse (by simp)

/-- The `ValidationError` pydantic raises when `PCRRecord(**metadata, ...)`
is built from metadata lacking the required `pcr_reg_no` field
(`pcr_models.py` line 7); its `str(e)` text is approximated by the first
lines of pydantic's message. -/
def pyValidationError : PyExc :=
  { ty := "ValidationError",
    msg := "1 validation error for PCRRecord\npcr_reg_no\n  Field required" }

/-- Whether a chunk's metadata carries the required `pcr_reg_no` key, i.e.
whether `PCRRecord(**chunk.metadata, page_contents=[])` validates. -/
def validChunk (c : Document) : Bool :=
  (Metadata.get c.metadata "pcr_reg_no").isSome

/-- `PCRRecord(**chunk.metadata, page_contents=[])` (`pcr_services.py`
line 117): pydantic requires `pcr_reg_no` (`pcr_models.py`), so the
construction raises a `ValidationError` when the metadata lacks that key;
otherwise the record captures the metadata wholesale with empty
`page_contents`. -/
def mkPCRRecord (m : Metadata) : Except PyExc PCRRecord :=
  match Metadata.get m "pcr_reg_no" with
  | none => Except.error pyValidationError
  | some _ => Except.ok { metadata := m, page_content := none, page_contents := [] }

/-- One iteration of the `for chunk in initial_chunks` loop building
`document_context` (`pcr_services.py`, lines 110-123): chunks whose truthy
`fid` is in the selected list get a record created on first encounter —
which raises `ValidationError` when that chunk's metadata lacks
`pcr_reg_no` — and their text appended to the record's `page_contents`. -/
def ctxStep (top : List String) (ctx : List (String × PCRRecord)) (chunk : Document) :
    Except PyExc (List (String × PCRRecord)) :=
  match truthyFid chunk with
  | none => Except.ok ctx
  | some fid =>
    if fid ∈ top then
      match (if (List.lookup fid ctx).isSome then Except.ok ctx
             else (mkPCRRecord chunk.metadata).map (fun r => ctx ++ [(fid, r)])) with
      | Except.error e => Except.error e
      | Except.ok ctx1 => Except.ok (ctx1.map
          (fun p => if p.1 = fid then
            (p.1, { p.2 with page_contents := p.2.page_contents ++ [chunk.page_content] })
            else p))
    else Except.ok ctx

/-- Proof helper: the loop iteration restricted to inputs on which record
construction validates; `ctxStep` agrees with it whenever it does not
raise (`foldlM_ctxStep_ok` below). -/
def ctxStepOk (top : List String) (ctx : List (String × PCRRecord)) (chunk : Document) :
    List (String × PCRRecord) :=
  match truthyFid chunk with
  | none => ctx
  | some fid =>
    if fid ∈ top then
      (if (List.lookup fid ctx).isSome then ctx
       else ctx ++ [(fid, { metadata := chunk.metadata, page_contents := [] })]).map
        (fun p => if p.1 = fid then
          (p.1, { p.2 with page_contents := p.2.page_contents ++ [chunk.page_content] })
          else p)
    else ctx

/-- The `document_context` dict after the whole loop, or the first
`ValidationError` the loop raised. -/
def buildContext (chunks : List Document) (top : List String) :
    Except PyExc (List (String × PCRRecord)) :=
  List.foldlM (ctxStep top) [] chunks

/-- Proof helper: the context of a run in which no construction raised. -/
def buildContextOk (chunks : List Document) (top : List String) :
    List (String × PCRRecord) :=
  List.foldl (ctxStepOk top) [] chunks

/-- Lines 133-137: store the aggregated context, i.e. the record's
`page_contents` joined with the fixed separator, into `page_content`. -/
def finalizeRecord (r : PCRRecord) : PCRRecord :=
  { r with page_content := some (String.intercalate chunk_separator r.page_contents) }

/-- The `for i, fid in enumerate(top_doc_fids)` output loop
(`pcr_services.py`, lines 126-151): emit, in selected order, a finalized
record (aggregated `page_content` joined with `chunk_separator`) for every
selected fid present in the context; a selected fid absent from the context
is skipped and appended to the warning log (second component). -/
def assemble (ctx : List (String × PCRRecord)) (top : List String) :
    List PCRRecord × List String :=
  top.foldl
    (fun acc fid =>
      match List.lookup fid ctx with
      | some r => (acc.1 ++ [finalizeRecord r], acc.2)
      | none => (acc.1, acc.2 ++ [fid]))
    ([], [])

/-- Steps 3-4 of `get_pcr_records_from_chroma` (lines 106-151) as one
function of the candidate chunks and the selected fid list: the produced
records and the warning log of skipped fids, or the `ValidationError`
raised while building the context. -/
def aggregate_documents (chunks : List Document) (top : List String) :
    Except PyExc (List PCRRecord × List String) :=
  match buildContext chunks top with
  | Except.error e => Except.error e
  | Except.ok ctx => Except.ok (assemble ctx top)

/-- Proof helper: the aggregation output of a run in which no construction
raised. -/
def aggregateOk (chunks : List Document) (top : List String) :
    List PCRRecord × List String :=
  assemble (buildContextOk chunks top) top

/-- Specification vocabulary: every selected fid whose hit list is
nonempty has a first hit whose metadata carries the required
`pcr_reg_no` — exactly the condition under which the aggregation loop
raises no `ValidationError`. -/
def aggregationValid (chunks : List Document) (top : List String) : Bool :=
  top.all (fun fid =>
    match (fidHits chunks fid).head? with
    | none => true
    | some h => validChunk h)

/-- Embedding of `get_pcr_records_from_chroma` (`pcr_services.py`,
lines 76-163).  `sim` is the `db.similarity_search` collaborator.  The
result pairs the returned value (or the raised exception) with the list of
`(query, k)` calls made to the collaborator, in order.  The `except`
clause wraps every exception raised inside the `try` — a collaborator
failure as well as an aggregation-stage `ValidationError` — re-raising
`Exception(f"資料庫查詢失敗: {e}")`, modelled as a `PyExc` of type
`"Exception"` whose message prepends that prefix to `str(e)`. -/
def get_pcr_records_from_chroma
    (sim : String → Nat → Except PyExc (List Document))
    (skip limit : Nat) (search : Option String)
    (k_chunks_initial top_n_documents : Nat) :
    Except PyExc (List PCRRecord) × List (String × Nat) :=
  match search with
  | none => (Except.ok [], [])
  | some q =>
    if q = "" then (Except.ok [], [])
    else
      match sim q k_chunks_initial with
      | Except.error e =>
        (Except.error { ty := "Exception", msg := "資料庫查詢失敗: " ++ e.msg },
         [(q, k_chunks_initial)])
      | Except.ok initial_chunks =>
        if initial_chunks = [] then (Except.ok [], [(q, k_chunks_initial)])
        else
          let top_doc_fids := get_top_n_document_fids initial_chunks top_n_documents
          match aggregate_documents initial_chunks top_doc_fids with
          | Except.error e =>
            (Except.error { ty := "Exception", msg := "資料庫查詢失敗: " ++ e.msg },
             [(q, k_chunks_initial)])
          | Except.ok out => (Except.ok out.1, [(q, k_chunks_initial)])


lemma truthyFid_metadata_get {d : Document} {f : String} (h : truthyFid d = some f) :
    Metadata.get d.metadata "fid" = some f := by
  unfold truthyFid at h
  cases hm : Metadata.get d.metadata "fid" with
  | none => rw [hm] at h; exact absurd h (by simp)
  | some s =>
    rw [hm] at h
    by_cases hs : s = "" <;> simp [hs] at h <;> simp [h]

lemma mem_firstOccDedup {a : String} : ∀ {xs : List String},
    a ∈ firstOccDedup xs ↔ a ∈ xs := by
  intro xs
  induction xs with
  | nil => simp [firstOccDedup]
  | cons x xs ih =>
    simp only [firstOccDedup, List.mem_cons, List.mem_filter, ih, bne_iff_ne]
    constructor
    · rintro (rfl | ⟨h, _⟩)
      · exact Or.inl rfl
      · exact Or.inr h
    · rintro (rfl | h)
      · exact Or.inl rfl
      · by_cases hax : a = x
        · exact Or.inl hax
        · exact Or.inr ⟨h, hax⟩

lemma nodup_firstOccDedup : ∀ (xs : List String), (firstOccDedup xs).Nodup := by
  intro xs
  induction xs with
  | nil => simp [firstOccDedup]
  | cons x xs ih =>
    rw [firstOccDedup, List.nodup_cons]
    refine ⟨fun hmem => ?_, ih.filter _⟩
    have := (List.mem_filter.mp hmem).2
    simp at this

lemma length_firstOccDedup (xs : List String) :
    (firstOccDedup xs).length = xs.dedup.length := by
  have hperm : (firstOccDedup xs).Perm xs.dedup := by
    rw [List.perm_ext_iff_of_nodup (nodup_firstOccDedup xs) xs.nodup_dedup]
    intro a
    rw [mem_firstOccDedup, List.mem_dedup]
  exact hperm.length_eq

lemma counter_map_fst (xs : List String) :
    (counter xs).map Prod.fst = firstOccDedup xs := by
  simp [counter, List.map_map, Function.comp_def]

lemma mem_counter {xs : List String} {p : String × Nat} :
    p ∈ counter xs ↔ p.1 ∈ xs ∧ p.2 = xs.count p.1 := by
  constructor
  · intro h
    obtain ⟨a, ha, rfl⟩ := List.mem_map.mp h
    exact ⟨mem_firstOccDedup.mp ha, rfl⟩
  · rintro ⟨h1, h2⟩
    refine List.mem_map.mpr ⟨p.1, mem_firstOccDedup.mpr h1, ?_⟩
    exact Prod.ext rfl h2.symm

lemma filter_orderedInsert (c : Nat) (p : String × Nat) :
    ∀ (l : List (String × Nat)),
      (List.orderedInsert countGE p l).filter (fun q => q.2 == c) =
        if p.2 = c then p :: l.filter (fun q => q.2 == c)
        else l.filter (fun q => q.2 == c) := by
  intro l
  induction l with
  | nil =>
    by_cases hp : p.2 = c <;> simp [List.orderedInsert, hp]
  | cons q l ih =>
    rw [List.orderedInsert]
    by_cases hle : countGE p q
    · by_cases hp : p.2 = c <;> simp [hle, List.filter_cons, hp]
    · by_cases hq : q.2 = c
      · by_cases hp : p.2 = c
        · exact absurd (le_of_eq (hq.trans hp.symm)) hle
        · simp [hle, List.filter_cons, hq, hp, ih]
      · by_cases hp : p.2 = c <;> simp [hle, List.filter_cons, hq, hp, ih]

lemma filter_insertionSort (c : Nat) :
    ∀ (l : List (String × Nat)),
      (List.insertionSort countGE l).filter (fun q => q.2 == c) =
        l.filter (fun q => q.2 == c) := by
  intro l
  induction l with
  | nil => rfl
  | cons p l ih =>
    rw [List.insertionSort, filter_orderedInsert, List.filter_cons]
    by_cases hp : p.2 = c <;> simp [hp, ih]

lemma get_top_n_eq (chunks : List Document) (top_n : Nat) :
    get_top_n_document_fids chunks top_n =
      ((List.insertionSort countGE (counter (chunks.filterMap truthyFid))).take
        top_n).map Prod.fst := rfl

lemma nodup_get_top_n (chunks : List Document) (top_n : Nat) :
    (get_top_n_document_fids chunks top_n).Nodup := by
  rw [get_top_n_eq]
  have hperm :
      ((List.insertionSort countGE (counter (chunks.filterMap truthyFid))).map
        Prod.fst).Perm ((counter (chunks.filterMap truthyFid)).map Prod.fst) :=
    (List.perm_insertionSort countGE _).map Prod.fst
  have hnd :
      ((List.insertionSort countGE (counter (chunks.filterMap truthyFid))).map
        Prod.fst).Nodup := by
    refine hperm.nodup_iff.mpr ?_
    rw [counter_map_fst]
    exact nodup_firstOccDedup _
  have hsub := (List.take_sublist top_n
    (List.insertionSort countGE (counter (chunks.filterMap truthyFid)))).map
      (f := Prod.fst)
  exact hsub.nodup hnd

lemma length_get_top_n_le (chunks : List Document) (top_n : Nat) :
    (get_top_n_document_fids chunks top_n).length ≤ top_n ∧
    (get_top_n_document_fids chunks top_n).length ≤
      (chunks.filterMap truthyFid).dedup.length := by
  rw [get_top_n_eq, List.length_map, List.length_take]
  constructor
  · exact min_le_left _ _
  · refine le_trans (min_le_right _ _) ?_
    rw [List.length_insertionSort, counter, List.length_map, length_firstOccDedup]

lemma mem_get_top_n {chunks : List Document} {top_n : Nat} {f : String}
    (h : f ∈ get_top_n_document_fids chunks top_n) :
    ∃ c ∈ chunks, truthyFid c = some f := by
  rw [get_top_n_eq] at h
  obtain ⟨p, hp, rfl⟩ := List.mem_map.mp h
  have hp2 : p ∈ List.insertionSort countGE (counter (chunks.filterMap truthyFid)) :=
    (List.take_sublist _ _).mem hp
  have hp3 : p ∈ counter (chunks.filterMap truthyFid) :=
    (List.mem_insertionSort countGE).mp hp2
  have hp4 : p.1 ∈ chunks.filterMap truthyFid := (mem_counter.mp hp3).1
  obtain ⟨c, hc, hcf⟩ := List.mem_filterMap.mp hp4
  exact ⟨c, hc, hcf⟩

/-- Claim C1: for every finite candidate list and every `top_n`,
`get_top_n_document_fids` returns a list with no duplicates, of length at
most `top_n` and at most the number of distinct fid values present in the
candidates' metadata, every returned identifier being the truthy `fid` of
at least one candidate; an empty candidate list yields an empty list. -/
theorem C1_rank_top_documents_guarantees (chunks : List Document) (top_n : Nat) :
    (get_top_n_document_fids chunks top_n).Nodup ∧
    (get_top_n_document_fids chunks top_n).length ≤ top_n ∧
    (get_top_n_document_fids chunks top_n).length ≤
      (chunks.filterMap truthyFid).dedup.length ∧
    (∀ f ∈ get_top_n_document_fids chunks top_n, ∃ c ∈ chunks, truthyFid c = some f) ∧
    (chunks = [] → get_top_n_document_fids chunks top_n = []) :=
  ⟨nodup_get_top_n chunks top_n, (length_get_top_n_le chunks top_n).1,
   (length_get_top_n_le chunks top_n).2, fun _ hf => mem_get_top_n hf,
   by rintro rfl; simp [get_top_n_eq, counter, firstOccDedup]⟩

/-- Claim C9: the ranking's tie-break is deterministic first-occurrence order:
for every occurrence count `c`, the fids of count `c` in the returned list
form, in order, an initial segment of the distinct fids of count `c` listed
in first-occurrence order of the candidate sequence (Counter preserves
first-insertion order and the `most_common` selection is stable). -/
theorem C9_tie_break_is_first_occurrence_order (chunks : List Document)
    (top_n : Nat) (c : Nat) :
    (get_top_n_document_fids chunks top_n).filter
        (fun a => (chunks.filterMap truthyFid).count a == c) <+:
      (firstOccDedup (chunks.filterMap truthyFid)).filter
        (fun a => (chunks.filterMap truthyFid).count a == c) := by
  rw [get_top_n_eq, List.filter_map]
  have hcongr : ∀ p ∈ List.insertionSort countGE (counter (chunks.filterMap truthyFid)),
      (((fun a => (chunks.filterMap truthyFid).count a == c) ∘ Prod.fst) p) = (p.2 == c) := by
    intro p hp
    have h2 : p.2 = (chunks.filterMap truthyFid).count p.1 :=
      (mem_counter.mp ((List.mem_insertionSort countGE).mp hp)).2
    simp [Function.comp_def, h2]
  have hmain :
      ((List.insertionSort countGE (counter (chunks.filterMap truthyFid))).filter
          ((fun a => (chunks.filterMap truthyFid).count a == c) ∘ Prod.fst)).map Prod.fst =
        (firstOccDedup (chunks.filterMap truthyFid)).filter
          (fun a => (chunks.filterMap truthyFid).count a == c) := by
    rw [List.filter_congr hcongr, filter_insertionSort, counter, List.filter_map,
      List.map_map]
    simp [Function.comp_def]
  have hpre := List.take_prefix top_n
    (List.insertionSort countGE (counter (chunks.filterMap truthyFid)))
  have hpre2 := (hpre.filter
    ((fun a => (chunks.filterMap truthyFid).count a == c) ∘ Prod.fst)).map Prod.fst
  rw [hmain] at hpre2
  exact hpre2

lemma lookup_map_update (g fid : String) (f : PCRRecord → PCRRecord) :
    ∀ (l : List (String × PCRRecord)),
      List.lookup fid (l.map (fun p => if p.1 = g then (p.1, f p.2) else p)) =
        if fid = g then (List.lookup fid l).map f else List.lookup fid l := by
  intro l
  induction l with
  | nil => by_cases h : fid = g <;> simp [h, List.lookup]
  | cons p l ih =>
    obtain ⟨a, b⟩ := p
    have hhead : (if (a, b).1 = g then ((a, b).1, f (a, b).2) else (a, b)) =
        if a = g then (a, f b) else (a, b) := rfl
    rw [List.map_cons, hhead]
    by_cases hag : a = g
    · subst hag
      rw [if_pos rfl]
      by_cases hfa : fid = a
      · subst hfa
        simp [List.lookup]
      · have hb : (fid == a) = false := beq_eq_false_iff_ne.mpr hfa
        simp only [List.lookup, hb]
        rw [ih]
    · rw [if_neg hag]
      by_cases hfa : fid = a
      · subst hfa
        simp [List.lookup, hag]
      · have hb : (fid == a) = false := beq_eq_false_iff_ne.mpr hfa
        simp only [List.lookup, hb]
        exact ih

lemma lookup_append_one (g fid : String) (r : PCRRecord) :
    ∀ (l : List (String × PCRRecord)),
      List.lookup fid (l ++ [(g, r)]) =
        match List.lookup fid l with
        | some x => some x
        | none => if fid = g then some r else none := by
  intro l
  induction l with
  | nil =>
    by_cases h : fid = g
    · have hb : (fid == g) = true := by simp [h]
      simp [List.lookup, hb, h]
    · have hb : (fid == g) = false := beq_eq_false_iff_ne.mpr h
      simp [List.lookup, hb, h]
  | cons p l ih =>
    obtain ⟨a, b⟩ := p
    by_cases hfa : fid = a
    · have hba : (fid == a) = true := by simp [hfa]
      simp [List.lookup, hba]
    · have hba : (fid == a) = false := beq_eq_false_iff_ne.mpr hfa
      simp [List.lookup, hba, ih]

lemma fidHits_cons_pos {ch : Document} {fid : String} (rest : List Document)
    (h : truthyFid ch = some fid) :
    fidHits (ch :: rest) fid = ch :: fidHits rest fid := by
  simp [fidHits, List.filter_cons, h]

lemma fidHits_cons_neg {ch : Document} {fid : String} (rest : List Document)
    (h : ¬ truthyFid ch = some fid) :
    fidHits (ch :: rest) fid = fidHits rest fid := by
  simp [fidHits, List.filter_cons, h]

lemma lookup_ctx_update (g fid : String) (t : String) (l : List (String × PCRRecord)) :
    List.lookup fid (l.map (fun p => if p.1 = g then
        (p.1, { p.2 with page_contents := p.2.page_contents ++ [t] }) else p)) =
      if fid = g then (List.lookup fid l).map
        (fun r => { r with page_contents := r.page_contents ++ [t] })
      else List.lookup fid l :=
  lookup_map_update g fid (fun r => { r with page_contents := r.page_contents ++ [t] }) l

lemma lookup_foldl_ctxStepOk (top : List String) (fid : String) (hfid : fid ∈ top) :
    ∀ (chunks : List Document) (ctx : List (String × PCRRecord)),
      List.lookup fid (chunks.foldl (ctxStepOk top) ctx) =
        match List.lookup fid ctx with
        | some r => some { r with page_contents :=
            r.page_contents ++ (fidHits chunks fid).map Document.page_content }
        | none => (fidHits chunks fid).head?.map (fun h =>
            { metadata := h.metadata, page_content := none,
              page_contents := (fidHits chunks fid).map Document.page_content }) := by
  intro chunks
  induction chunks with
  | nil =>
    intro ctx
    cases hl : List.lookup fid ctx with
    | none => simp [fidHits, hl]
    | some r => simp [fidHits, hl]
  | cons ch rest ih =>
    intro ctx
    rw [List.foldl_cons, ih (ctxStepOk top ctx ch)]
    cases htf : truthyFid ch with
    | none =>
      have hstep : ctxStepOk top ctx ch = ctx := by simp [ctxStepOk, htf]
      have hhits : fidHits (ch :: rest) fid = fidHits rest fid :=
        fidHits_cons_neg rest (by simp [htf])
      rw [hstep, hhits]
    | some g =>
      by_cases hfg : fid = g
      · subst hfg
        by_cases hg : fid ∈ top
        · have hstep : ctxStepOk top ctx ch =
              (if (List.lookup fid ctx).isSome then ctx
               else ctx ++ [(fid, { metadata := ch.metadata, page_contents := [] })]).map
                (fun p => if p.1 = fid then
                  (p.1, { p.2 with page_contents := p.2.page_contents ++ [ch.page_content] })
                  else p) := by
            simp [ctxStepOk, htf, hg]
          rw [hstep, fidHits_cons_pos rest htf]
          cases hl : List.lookup fid ctx with
          | some r => simp [lookup_ctx_update, hl, List.append_assoc]
          | none => simp [lookup_ctx_update, lookup_append_one, hl]
        · exact absurd hfid hg
      · have hhits : fidHits (ch :: rest) fid = fidHits rest fid := by
          refine fidHits_cons_neg rest ?_
          rw [htf]
          exact fun h => hfg (Option.some.inj h).symm
        have hstep : List.lookup fid (ctxStepOk top ctx ch) = List.lookup fid ctx := by
          by_cases hg : g ∈ top
          · have hstep2 : ctxStepOk top ctx ch =
                (if (List.lookup g ctx).isSome then ctx
                 else ctx ++ [(g, { metadata := ch.metadata, page_contents := [] })]).map
                  (fun p => if p.1 = g then
                    (p.1, { p.2 with page_contents := p.2.page_contents ++ [ch.page_content] })
                    else p) := by
              simp [ctxStepOk, htf, hg]
            rw [hstep2]
            cases hl : (List.lookup g ctx).isSome with
            | true =>
              rw [if_pos rfl]
              rw [lookup_ctx_update, if_neg hfg]
            | false =>
              rw [if_neg Bool.false_ne_true]
              rw [lookup_ctx_update, if_neg hfg, lookup_append_one]
              cases hfl : List.lookup fid ctx with
              | none => simp [hfg]
              | some x => simp
          · simp [ctxStepOk, htf, hg]
        rw [hstep, hhits]

lemma lookup_buildContextOk (chunks : List Document) {top : List String} {fid : String}
    (hfid : fid ∈ top) :
    List.lookup fid (buildContextOk chunks top) =
      (fidHits chunks fid).head?.map (fun h =>
        { metadata := h.metadata, page_content := none,
          page_contents := (fidHits chunks fid).map Document.page_content }) := by
  have h := lookup_foldl_ctxStepOk top fid hfid chunks []
  simpa [buildContextOk, List.lookup] using h

lemma except_bind_ok {α β : Type} (x : α) (f : α → Except PyExc β) :
    (Except.ok x >>= f) = f x := rfl

lemma except_bind_error {α β : Type} (e : PyExc) (f : α → Except PyExc β) :
    ((Except.error e : Except PyExc α) >>= f) = Except.error e := rfl

lemma mkPCRRecord_of_valid {ch : Document} (hv : validChunk ch = true) :
    mkPCRRecord ch.metadata =
      Except.ok { metadata := ch.metadata, page_content := none, page_contents := [] } := by
  unfold mkPCRRecord
  unfold validChunk at hv
  cases hgr : Metadata.get ch.metadata "pcr_reg_no" with
  | none => rw [hgr] at hv; exact absurd hv (by simp)
  | some s => rfl

lemma mkPCRRecord_of_invalid {ch : Document} (hv : validChunk ch = false) :
    mkPCRRecord ch.metadata = Except.error pyValidationError := by
  unfold mkPCRRecord
  unfold validChunk at hv
  cases hgr : Metadata.get ch.metadata "pcr_reg_no" with
  | none => rfl
  | some s => rw [hgr] at hv; exact absurd hv (by simp)

lemma foldlM_ctxStep_ok (top : List String) :
    ∀ (chunks : List Document) (ctx : List (String × PCRRecord)),
      (∀ fid ∈ top, List.lookup fid ctx = none →
        ∀ h, (fidHits chunks fid).head? = some h → validChunk h = true) →
      List.foldlM (ctxStep top) ctx chunks =
        Except.ok (List.foldl (ctxStepOk top) ctx chunks) := by
  intro chunks
  induction chunks with
  | nil => intro ctx _; rfl
  | cons ch rest ih =>
    intro ctx hval
    rw [List.foldlM_cons, List.foldl_cons]
    cases htf : truthyFid ch with
    | none =>
      have h1 : ctxStep top ctx ch = Except.ok ctx := by simp [ctxStep, htf]
      have h2 : ctxStepOk top ctx ch = ctx := by simp [ctxStepOk, htf]
      rw [h1, except_bind_ok, h2]
      refine ih ctx (fun fid hfid hnone h hh => hval fid hfid hnone h ?_)
      rw [fidHits_cons_neg rest (by simp [htf])]
      exact hh
    | some g =>
      by_cases hg : g ∈ top
      · cases hl : List.lookup g ctx with
        | some r =>
          have h1 : ctxStep top ctx ch = Except.ok (ctx.map
              (fun p => if p.1 = g then
                (p.1, { p.2 with page_contents := p.2.page_contents ++ [ch.page_content] })
                else p)) := by
            simp [ctxStep, htf, hg, hl]
          have h2 : ctxStepOk top ctx ch = ctx.map
              (fun p => if p.1 = g then
                (p.1, { p.2 with page_contents := p.2.page_contents ++ [ch.page_content] })
                else p) := by
            simp [ctxStepOk, htf, hg, hl]
          rw [h1, except_bind_ok, h2]
          refine ih _ (fun fid hfid hnone h hh => ?_)
          by_cases hfg : fid = g
          · exfalso
            subst hfg
            rw [lookup_ctx_update, if_pos rfl, hl] at hnone
            exact absurd hnone (by simp)
          · rw [lookup_ctx_update, if_neg hfg] at hnone
            refine hval fid hfid hnone h ?_
            rw [fidHits_cons_neg rest ?_]
            · exact hh
            · rw [htf]
              exact fun hc => hfg (Option.some.inj hc).symm
        | none =>
          have hfirst : (fidHits (ch :: rest) g).head? = some ch := by
            rw [fidHits_cons_pos rest htf]; rfl
          have hvch := hval g hg hl ch hfirst
          have h1 : ctxStep top ctx ch = Except.ok
              ((ctx ++ [(g, ({ metadata := ch.metadata, page_content := none,
                               page_contents := [] } : PCRRecord))]).map
                (fun p => if p.1 = g then
                  (p.1, { p.2 with page_contents := p.2.page_contents ++ [ch.page_content] })
                  else p)) := by
            simp [ctxStep, htf, hg, hl, mkPCRRecord_of_valid hvch, Except.map]
          have h2 : ctxStepOk top ctx ch =
              (ctx ++ [(g, ({ metadata := ch.metadata, page_content := none,
                              page_contents := [] } : PCRRecord))]).map
                (fun p => if p.1 = g then
                  (p.1, { p.2 with page_contents := p.2.page_contents ++ [ch.page_content] })
                  else p) := by
            simp [ctxStepOk, htf, hg, hl]
          rw [h1, except_bind_ok, h2]
          refine ih _ (fun fid hfid hnone h hh => ?_)
          by_cases hfg : fid = g
          · exfalso
            subst hfg
            rw [lookup_ctx_update, if_pos rfl, lookup_append_one, hl] at hnone
            simp at hnone
          · rw [lookup_ctx_update, if_neg hfg, lookup_append_one] at hnone
            cases hfl : List.lookup fid ctx with
            | some x => rw [hfl] at hnone; exact absurd hnone (by simp)
            | none =>
              refine hval fid hfid hfl h ?_
              rw [fidHits_cons_neg rest ?_]
              · exact hh
              · rw [htf]
                exact fun hc => hfg (Option.some.inj hc).symm
      · have h1 : ctxStep top ctx ch = Except.ok ctx := by simp [ctxStep, htf, hg]
        have h2 : ctxStepOk top ctx ch = ctx := by simp [ctxStepOk, htf, hg]
        rw [h1, except_bind_ok, h2]
        refine ih ctx (fun fid hfid hnone h hh => hval fid hfid hnone h ?_)
        rw [fidHits_cons_neg rest ?_]
        · exact hh
        · rw [htf]
          intro hc
          refine hg ?_
          rw [Option.some.inj hc]
          exact hfid

lemma foldlM_ctxStep_error (top : List String) :
    ∀ (chunks : List Document) (ctx : List (String × PCRRecord)),
      (∃ fid, fid ∈ top ∧ List.lookup fid ctx = none ∧
        ∃ h, (fidHits chunks fid).head? = some h ∧ validChunk h = false) →
      List.foldlM (ctxStep top) ctx chunks = Except.error pyValidationError := by
  intro chunks
  induction chunks with
  | nil =>
    rintro ctx ⟨fid, _, _, h, hh, _⟩
    exact absurd hh (by simp [fidHits])
  | cons ch rest ih =>
    rintro ctx ⟨fid, hfid, hnone, h, hh, hbad⟩
    rw [List.foldlM_cons]
    cases htf : truthyFid ch with
    | none =>
      have h1 : ctxStep top ctx ch = Except.ok ctx := by simp [ctxStep, htf]
      rw [h1, except_bind_ok]
      rw [fidHits_cons_neg rest (by simp [htf])] at hh
      exact ih ctx ⟨fid, hfid, hnone, h, hh, hbad⟩
    | some g =>
      by_cases hg : g ∈ top
      · cases hl : List.lookup g ctx with
        | some r =>
          have h1 : ctxStep top ctx ch = Except.ok (ctx.map
              (fun p => if p.1 = g then
                (p.1, { p.2 with page_contents := p.2.page_contents ++ [ch.page_content] })
                else p)) := by
            simp [ctxStep, htf, hg, hl]
          rw [h1, except_bind_ok]
          have hfg : ¬ fid = g := by
            intro hc
            rw [hc, hl] at hnone
            exact Option.noConfusion hnone
          have hne : ¬ truthyFid ch = some fid := by
            rw [htf]
            exact fun hc => hfg (Option.some.inj hc).symm
          rw [fidHits_cons_neg rest hne] at hh
          refine ih _ ⟨fid, hfid, ?_, h, hh, hbad⟩
          rw [lookup_ctx_update, if_neg hfg]
          exact hnone
        | none =>
          by_cases hfg : fid = g
          · subst hfg
            have hch : h = ch := by
              rw [fidHits_cons_pos rest htf] at hh
              exact (Option.some.inj hh).symm
            rw [hch] at hbad
            have h1 : ctxStep top ctx ch = Except.error pyValidationError := by
              simp [ctxStep, htf, hg, hl, mkPCRRecord_of_invalid hbad, Except.map]
            rw [h1, except_bind_error]
          · have hne : ¬ truthyFid ch = some fid := by
              rw [htf]
              exact fun hc => hfg (Option.some.inj hc).symm
            rw [fidHits_cons_neg rest hne] at hh
            cases hmk : mkPCRRecord ch.metadata with
            | error e =>
              have he : e = pyValidationError := by
                unfold mkPCRRecord at hmk
                cases hgr : Metadata.get ch.metadata "pcr_reg_no" with
                | none => rw [hgr] at hmk; exact (Except.error.inj hmk).symm
                | some s => rw [hgr] at hmk; exact absurd hmk (by simp)
              subst he
              have h1 : ctxStep top ctx ch = Except.error pyValidationError := by
                simp [ctxStep, htf, hg, hl, hmk, Except.map]
              rw [h1, except_bind_error]
            | ok r =>
              have h1 : ctxStep top ctx ch = Except.ok
                  ((ctx ++ [(g, r)]).map
                    (fun p => if p.1 = g then
                      (p.1, { p.2 with
                        page_contents := p.2.page_contents ++ [ch.page_content] })
                      else p)) := by
                simp [ctxStep, htf, hg, hl, hmk, Except.map]
              rw [h1, except_bind_ok]
              refine ih _ ⟨fid, hfid, ?_, h, hh, hbad⟩
              rw [lookup_ctx_update, if_neg hfg, lookup_append_one, hnone]
              simp [hfg]
      · have h1 : ctxStep top ctx ch = Except.ok ctx := by simp [ctxStep, htf, hg]
        rw [h1, except_bind_ok]
        have hfg : ¬ fid = g := by
          intro hc
          refine hg ?_
          rw [← hc]
          exact hfid
        have hne : ¬ truthyFid ch = some fid := by
          rw [htf]
          exact fun hc => hfg (Option.some.inj hc).symm
        rw [fidHits_cons_neg rest hne] at hh
        exact ih ctx ⟨fid, hfid, hnone, h, hh, hbad⟩

lemma aggregationValid_spec (chunks : List Document) (top : List String) :
    aggregationValid chunks top = true ↔
      ∀ fid ∈ top, ∀ h, (fidHits chunks fid).head? = some h →
        validChunk h = true := by
  unfold aggregationValid
  rw [List.all_eq_true]
  constructor
  · intro ha fid hfid h hh
    have hx := ha fid hfid
    rw [hh] at hx
    exact hx
  · intro ha fid hfid
    cases hh : (fidHits chunks fid).head? with
    | none => rfl
    | some h => exact ha fid hfid h hh

lemma aggregationValid_false (chunks : List Document) (top : List String) :
    aggregationValid chunks top = false ↔
      ∃ fid, fid ∈ top ∧ ∃ h, (fidHits chunks fid).head? = some h ∧
        validChunk h = false := by
  rw [Bool.eq_false_iff, Ne, aggregationValid_spec]
  push_neg
  constructor
  · rintro ⟨fid, hfid, h, hh, hb⟩
    exact ⟨fid, hfid, h, hh, Bool.eq_false_iff.mpr hb⟩
  · rintro ⟨fid, hfid, h, hh, hb⟩
    exact ⟨fid, hfid, h, hh, Bool.eq_false_iff.mp hb⟩

lemma buildContext_cases (chunks : List Document) (top : List String) :
    buildContext chunks top =
      if aggregationValid chunks top = true
      then Except.ok (buildContextOk chunks top)
      else Except.error pyValidationError := by
  by_cases hv : aggregationValid chunks top = true
  · rw [if_pos hv]
    exact foldlM_ctxStep_ok top chunks []
      (fun fid hfid _ h hh => (aggregationValid_spec chunks top).mp hv fid hfid h hh)
  · rw [if_neg hv]
    obtain ⟨fid, hfid, h, hh, hbad⟩ :=
      (aggregationValid_false chunks top).mp (Bool.eq_false_iff.mpr hv)
    exact foldlM_ctxStep_error top chunks [] ⟨fid, hfid, rfl, h, hh, hbad⟩

lemma aggregate_documents_cases (chunks : List Document) (top : List String) :
    aggregate_documents chunks top =
      if aggregationValid chunks top = true
      then Except.ok (aggregateOk chunks top)
      else Except.error pyValidationError := by
  unfold aggregate_documents
  rw [buildContext_cases]
  by_cases hv : aggregationValid chunks top = true <;> simp [hv, aggregateOk]

lemma assemble_go (ctx : List (String × PCRRecord)) :
    ∀ (top : List String) (acc : List PCRRecord × List String),
      top.foldl
        (fun acc fid =>
          match List.lookup fid ctx with
          | some r => (acc.1 ++ [finalizeRecord r], acc.2)
          | none => (acc.1, acc.2 ++ [fid])) acc =
      (acc.1 ++ top.filterMap (fun fid => (List.lookup fid ctx).map finalizeRecord),
       acc.2 ++ top.filter (fun fid => (List.lookup fid ctx).isNone)) := by
  intro top
  induction top with
  | nil => intro acc; simp
  | cons fid top ih =>
    intro acc
    rw [List.foldl_cons]
    cases hl : List.lookup fid ctx with
    | some r =>
      rw [ih]
      simp [List.filterMap_cons, List.filter_cons, hl, List.append_assoc]
    | none =>
      rw [ih]
      simp [List.filterMap_cons, List.filter_cons, hl, List.append_assoc]

lemma assemble_eq (ctx : List (String × PCRRecord)) (top : List String) :
    assemble ctx top =
      (top.filterMap (fun fid => (List.lookup fid ctx).map finalizeRecord),
       top.filter (fun fid => (List.lookup fid ctx).isNone)) := by
  have h := assemble_go ctx top ([], [])
  simpa [assemble] using h

lemma aggregateOk_fst (chunks : List Document) (top : List String) :
    (aggregateOk chunks top).1 =
      top.filterMap (fun fid => (fidHits chunks fid).head?.map (fun h =>
        finalizeRecord { metadata := h.metadata, page_content := none,
                         page_contents :=
                           (fidHits chunks fid).map Document.page_content })) := by
  rw [aggregateOk, assemble_eq]
  refine List.filterMap_congr (fun fid hfid => ?_)
  rw [lookup_buildContextOk chunks hfid]
  cases (fidHits chunks fid).head? <;> simp

lemma aggregateOk_snd (chunks : List Document) (top : List String) :
    (aggregateOk chunks top).2 =
      top.filter (fun fid => (fidHits chunks fid).isEmpty) := by
  rw [aggregateOk, assemble_eq]
  refine List.filter_congr (fun fid hfid => ?_)
  rw [lookup_buildContextOk chunks hfid]
  cases h : fidHits chunks fid <;> simp [h]

lemma map_proj_filterMap {β : Type} (φ : PCRRecord → β) (g : String → β)
    (p : String → Bool) (f : String → Option PCRRecord) :
    ∀ (top : List String),
      (∀ a ∈ top, ((f a).isSome = p a) ∧ ∀ r, f a = some r → φ r = g a) →
      (top.filterMap f).map φ = (top.filter p).map g := by
  intro top
  induction top with
  | nil => intro _; rfl
  | cons a top ih =>
    intro h
    have ha := h a (List.mem_cons_self a top)
    have htail := ih (fun b hb => h b (List.mem_cons_of_mem a hb))
    rw [List.filterMap_cons, List.filter_cons]
    cases hfa : f a with
    | none =>
      have hpa : p a = false := by rw [← ha.1, hfa]; rfl
      simp [hpa, htail]
    | some r =>
      have hpa : p a = true := by rw [← ha.1, hfa]; rfl
      simp [hpa, htail, ha.2 r hfa]

lemma head?_hits_truthy {chunks : List Document} {fid : String} {h : Document}
    (hh : (fidHits chunks fid).head? = some h) : truthyFid h = some fid := by
  have hmem : h ∈ fidHits chunks fid := by
    cases hl : fidHits chunks fid with
    | nil => rw [hl] at hh; exact absurd hh (by simp)
    | cons x xs =>
      rw [hl] at hh
      simp only [List.head?_cons, Option.some.injEq] at hh
      rw [← hh] at *
      exact List.mem_cons_self x xs
  have hf := (List.mem_filter.mp hmem).2
  simpa using hf

lemma hits_of_mem_top {chunks : List Document} {n : Nat} {fid : String}
    (h : fid ∈ get_top_n_document_fids chunks n) :
    (fidHits chunks fid).isEmpty = false := by
  obtain ⟨c, hc, hcf⟩ := mem_get_top_n h
  have hmem : c ∈ fidHits chunks fid := by
    refine List.mem_filter.mpr ⟨hc, ?_⟩
    simp [hcf]
  cases hl : fidHits chunks fid with
  | nil => rw [hl] at hmem; exact absurd hmem (by simp)
  | cons x xs => rfl

lemma records_page_contents (chunks : List Document) (top : List String) :
    (aggregateOk chunks top).1.map PCRRecord.page_content =
      (top.filter (fun fid => !(fidHits chunks fid).isEmpty)).map
        (fun fid => some (String.intercalate chunk_separator
          ((fidHits chunks fid).map Document.page_content))) := by
  rw [aggregateOk_fst]
  refine map_proj_filterMap _ _ _ _ top (fun a _ => ⟨?_, ?_⟩)
  · cases hl : fidHits chunks a <;> simp [hl]
  · intro r hr
    cases hl : (fidHits chunks a).head? with
    | none => rw [hl] at hr; exact absurd hr (by simp)
    | some hd =>
      rw [hl] at hr
      simp only [Option.map_some', Option.some.injEq] at hr
      rw [← hr]
      simp [finalizeRecord]

lemma records_fids (chunks : List Document) (top : List String) :
    (aggregateOk chunks top).1.map PCRRecord.fid =
      (top.filter (fun fid => !(fidHits chunks fid).isEmpty)).map some := by
  rw [aggregateOk_fst]
  refine map_proj_filterMap _ _ _ _ top (fun a _ => ⟨?_, ?_⟩)
  · cases hl : fidHits chunks a <;> simp [hl]
  · intro r hr
    cases hl : (fidHits chunks a).head? with
    | none => rw [hl] at hr; exact absurd hr (by simp)
    | some hd =>
      rw [hl] at hr
      simp only [Option.map_some', Option.some.injEq] at hr
      rw [← hr]
      have htf : truthyFid hd = some a := head?_hits_truthy hl
      simp only [PCRRecord.fid, finalizeRecord]
      exact truthyFid_metadata_get htf

lemma records_length (chunks : List Document) (top : List String) :
    (aggregateOk chunks top).1.length =
      (top.filter (fun fid => !(fidHits chunks fid).isEmpty)).length := by
  have h := congrArg List.length (records_page_contents chunks top)
  simpa using h

lemma chroma_result (sim : String → Nat → Except PyExc (List Document))
    (skip limit k n : Nat) (q : String) (chunks : List Document)
    (hq : ¬ q = "") (hsim : sim q k = Except.ok chunks) :
    (get_pcr_records_from_chroma sim skip limit (some q) k n).1 =
      if aggregationValid chunks (get_top_n_document_fids chunks n) = true
      then Except.ok ((aggregateOk chunks (get_top_n_document_fids chunks n)).1)
      else Except.error { ty := "Exception",
                          msg := "資料庫查詢失敗: " ++ pyValidationError.msg } := by
  by_cases hc : chunks = []
  · subst hc
    have htop : get_top_n_document_fids [] n = [] := by
      simp [get_top_n_eq, counter, firstOccDedup]
    rw [htop]
    have hv : aggregationValid [] [] = true := rfl
    rw [if_pos hv]
    simp [get_pcr_records_from_chroma, hq, hsim, aggregateOk, assemble, buildContextOk]
  · by_cases hv : aggregationValid chunks (get_top_n_document_fids chunks n) = true
    · rw [if_pos hv]
      simp [get_pcr_records_from_chroma, hq, hsim, hc, aggregate_documents_cases, hv]
    · rw [if_neg hv]
      have hv' := Bool.eq_false_iff.mpr hv
      simp [get_pcr_records_from_chroma, hq, hsim, hc, aggregate_documents_cases, hv']

/-- Counterexample to claim C2 as stated: the aggregation step does not
always emit one record per selected fid — on a candidate list whose
passage carries an `fid` but no `pcr_reg_no`, record construction raises a
`ValidationError` (`pcr_services.py` line 117, `pcr_models.py` required
field) and the aggregation emits nothing at all. -/
theorem C2_counterexample :
    get_top_n_document_fids [⟨"t1", [("fid", "A")]⟩] 1 = ["A"] ∧
    aggregate_documents [⟨"t1", [("fid", "A")]⟩]
        (get_top_n_document_fids [⟨"t1", [("fid", "A")]⟩] 1) =
      Except.error pyValidationError := by
  constructor
  · decide
  · decide

/-- Claim C2 (amended): for every candidate list and the selected-fid list
derived from it, provided every selected fid's first passage carries the
required `pcr_reg_no` metadata key (so pydantic validation succeeds), the
aggregation step emits one record per selected fid, in exactly the order
of the selected-fid list, and each record's aggregated `page_content` is
the `chunk_separator`-join of the `page_content` texts of that fid's
candidate passages in original candidate order (the records' fids align
one-to-one with the selected fids). -/
theorem C2_amended_aggregation_order_and_content (chunks : List Document)
    (n : Nat)
    (hv : aggregationValid chunks (get_top_n_document_fids chunks n) = true) :
    ∃ records warnings,
      aggregate_documents chunks (get_top_n_document_fids chunks n) =
        Except.ok (records, warnings) ∧
      records.map PCRRecord.page_content =
        (get_top_n_document_fids chunks n).map (fun fid =>
          some (String.intercalate chunk_separator
            ((fidHits chunks fid).map Document.page_content))) ∧
      records.map PCRRecord.fid =
        (get_top_n_document_fids chunks n).map some := by
  have hfilter : (get_top_n_document_fids chunks n).filter
      (fun fid => !(fidHits chunks fid).isEmpty) =
      get_top_n_document_fids chunks n := by
    refine List.filter_eq_self.mpr (fun fid hfid => ?_)
    rw [hits_of_mem_top hfid]
    rfl
  refine ⟨(aggregateOk chunks (get_top_n_document_fids chunks n)).1,
    (aggregateOk chunks (get_top_n_document_fids chunks n)).2, ?_, ?_, ?_⟩
  · rw [aggregate_documents_cases, if_pos hv]
  · rw [records_page_contents, hfilter]
  · rw [records_fids, hfilter]

/-- Witness for the amended C2: three validating passages, two for fid A
and one for fid B, top 1. -/
theorem C2_witness :
    ∃ records warnings,
      aggregate_documents
          [⟨"a1", [("fid", "A"), ("pcr_reg_no", "R1")]⟩,
           ⟨"b1", [("fid", "B"), ("pcr_reg_no", "R2")]⟩,
           ⟨"a2", [("fid", "A"), ("pcr_reg_no", "R1")]⟩]
          (get_top_n_document_fids
            [⟨"a1", [("fid", "A"), ("pcr_reg_no", "R1")]⟩,
             ⟨"b1", [("fid", "B"), ("pcr_reg_no", "R2")]⟩,
             ⟨"a2", [("fid", "A"), ("pcr_reg_no", "R1")]⟩] 1) =
        Except.ok (records, warnings) ∧
      records.map PCRRecord.page_content =
        (get_top_n_document_fids
          [⟨"a1", [("fid", "A"), ("pcr_reg_no", "R1")]⟩,
           ⟨"b1", [("fid", "B"), ("pcr_reg_no", "R2")]⟩,
           ⟨"a2", [("fid", "A"), ("pcr_reg_no", "R1")]⟩] 1).map (fun fid =>
          some (String.intercalate chunk_separator
            ((fidHits
              [⟨"a1", [("fid", "A"), ("pcr_reg_no", "R1")]⟩,
               ⟨"b1", [("fid", "B"), ("pcr_reg_no", "R2")]⟩,
               ⟨"a2", [("fid", "A"), ("pcr_reg_no", "R1")]⟩] fid).map
              Document.page_content))) ∧
      records.map PCRRecord.fid =
        (get_top_n_document_fids
          [⟨"a1", [("fid", "A"), ("pcr_reg_no", "R1")]⟩,
           ⟨"b1", [("fid", "B"), ("pcr_reg_no", "R2")]⟩,
           ⟨"a2", [("fid", "A"), ("pcr_reg_no", "R1")]⟩] 1).map some :=
  C2_amended_aggregation_order_and_content
    [⟨"a1", [("fid", "A"), ("pcr_reg_no", "R1")]⟩,
     ⟨"b1", [("fid", "B"), ("pcr_reg_no", "R2")]⟩,
     ⟨"a2", [("fid", "A"), ("pcr_reg_no", "R1")]⟩] 1 (by decide)

/-- Claim C3: on the success path of `get_pcr_records_from_chroma`, the
number of records equals the number of selected fids with at least one
attributable passage, is at most `min top_n_documents (number of distinct
fids)`, and no two records carry the same fid. -/
theorem C3_result_count_and_unique_fids
    (sim : String → Nat → Except PyExc (List Document))
    (skip limit k n : Nat) (q : String) (chunks : List Document)
    (recs : List PCRRecord)
    (hq : ¬ q = "") (hsim : sim q k = Except.ok chunks)
    (hres : (get_pcr_records_from_chroma sim skip limit (some q) k n).1 =
      Except.ok recs) :
    recs.length = ((get_top_n_document_fids chunks n).filter
        (fun fid => !(fidHits chunks fid).isEmpty)).length ∧
    recs.length ≤ min n (chunks.filterMap truthyFid).dedup.length ∧
    (recs.map PCRRecord.fid).Nodup := by
  by_cases hv : aggregationValid chunks (get_top_n_document_fids chunks n) = true
  case neg =>
    rw [chroma_result sim skip limit k n q chunks hq hsim, if_neg hv] at hres
    exact absurd hres (by simp)
  rw [chroma_result sim skip limit k n q chunks hq hsim, if_pos hv] at hres
  have hrecs := Except.ok.inj hres
  rw [← hrecs]
  refine ⟨records_length chunks _, ?_, ?_⟩
  · rw [records_length]
    refine le_min ?_ ?_
    · exact le_trans (List.length_filter_le _ _) (length_get_top_n_le chunks n).1
    · exact le_trans (List.length_filter_le _ _) (length_get_top_n_le chunks n).2
  · rw [records_fids]
    exact ((nodup_get_top_n chunks n).filter _).map (Option.some_injective String)

/-- Witness for C3 at a concrete input: three validating passages, two for
fid A and one for fid B, top 1. -/
theorem C3_witness :
    ((aggregateOk
        [⟨"a1", [("fid", "A"), ("pcr_reg_no", "R1")]⟩,
         ⟨"b1", [("fid", "B"), ("pcr_reg_no", "R2")]⟩,
         ⟨"a2", [("fid", "A"), ("pcr_reg_no", "R1")]⟩]
        (get_top_n_document_fids
          [⟨"a1", [("fid", "A"), ("pcr_reg_no", "R1")]⟩,
           ⟨"b1", [("fid", "B"), ("pcr_reg_no", "R2")]⟩,
           ⟨"a2", [("fid", "A"), ("pcr_reg_no", "R1")]⟩]
          1)).1).length =
      ((get_top_n_document_fids
          [⟨"a1", [("fid", "A"), ("pcr_reg_no", "R1")]⟩,
           ⟨"b1", [("fid", "B"), ("pcr_reg_no", "R2")]⟩,
           ⟨"a2", [("fid", "A"), ("pcr_reg_no", "R1")]⟩]
          1).filter (fun fid => !(fidHits
            [⟨"a1", [("fid", "A"), ("pcr_reg_no", "R1")]⟩,
             ⟨"b1", [("fid", "B"), ("pcr_reg_no", "R2")]⟩,
             ⟨"a2", [("fid", "A"), ("pcr_reg_no", "R1")]⟩]
            fid).isEmpty)).length ∧
    ((aggregateOk
        [⟨"a1", [("fid", "A"), ("pcr_reg_no", "R1")]⟩,
         ⟨"b1", [("fid", "B"), ("pcr_reg_no", "R2")]⟩,
         ⟨"a2", [("fid", "A"), ("pcr_reg_no", "R1")]⟩]
        (get_top_n_document_fids
          [⟨"a1", [("fid", "A"), ("pcr_reg_no", "R1")]⟩,
           ⟨"b1", [("fid", "B"), ("pcr_reg_no", "R2")]⟩,
           ⟨"a2", [("fid", "A"), ("pcr_reg_no", "R1")]⟩]
          1)).1).length ≤
      min 1 (([⟨"a1", [("fid", "A"), ("pcr_reg_no", "R1")]⟩,
        ⟨"b1", [("fid", "B"), ("pcr_reg_no", "R2")]⟩,
        ⟨"a2", [("fid", "A"), ("pcr_reg_no", "R1")]⟩] :
          List Document).filterMap truthyFid).dedup.length ∧
    (((aggregateOk
        [⟨"a1", [("fid", "A"), ("pcr_reg_no", "R1")]⟩,
         ⟨"b1", [("fid", "B"), ("pcr_reg_no", "R2")]⟩,
         ⟨"a2", [("fid", "A"), ("pcr_reg_no", "R1")]⟩]
        (get_top_n_document_fids
          [⟨"a1", [("fid", "A"), ("pcr_reg_no", "R1")]⟩,
           ⟨"b1", [("fid", "B"), ("pcr_reg_no", "R2")]⟩,
           ⟨"a2", [("fid", "A"), ("pcr_reg_no", "R1")]⟩]
          1)).1).map PCRRecord.fid).Nodup :=
  C3_result_count_and_unique_fids
    (fun _ _ => Except.ok
      [⟨"a1", [("fid", "A"), ("pcr_reg_no", "R1")]⟩,
       ⟨"b1", [("fid", "B"), ("pcr_reg_no", "R2")]⟩,
       ⟨"a2", [("fid", "A"), ("pcr_reg_no", "R1")]⟩])
    0 100 5 1 "q"
    [⟨"a1", [("fid", "A"), ("pcr_reg_no", "R1")]⟩,
     ⟨"b1", [("fid", "B"), ("pcr_reg_no", "R2")]⟩,
     ⟨"a2", [("fid", "A"), ("pcr_reg_no", "R1")]⟩]
    ((aggregateOk
        [⟨"a1", [("fid", "A"), ("pcr_reg_no", "R1")]⟩,
         ⟨"b1", [("fid", "B"), ("pcr_reg_no", "R2")]⟩,
         ⟨"a2", [("fid", "A"), ("pcr_reg_no", "R1")]⟩]
        (get_top_n_document_fids
          [⟨"a1", [("fid", "A"), ("pcr_reg_no", "R1")]⟩,
           ⟨"b1", [("fid", "B"), ("pcr_reg_no", "R2")]⟩,
           ⟨"a2", [("fid", "A"), ("pcr_reg_no", "R1")]⟩]
          1)).1)
    (by decide) rfl (by decide)

/-- Claim C4: a passage whose metadata lacks the `fid` key contributes to
no document's occurrence count in `get_top_n_document_fids`, and its text
and metadata appear in no produced record: deleting it from the candidate
list changes neither the ranking nor the aggregation output. -/
theorem C4_missing_fid_passage_ignored (l₁ l₂ : List Document) (c : Document)
    (n : Nat) (h : Metadata.get c.metadata "fid" = none) :
    get_top_n_document_fids (l₁ ++ c :: l₂) n =
      get_top_n_document_fids (l₁ ++ l₂) n ∧
    aggregate_documents (l₁ ++ c :: l₂)
        (get_top_n_document_fids (l₁ ++ c :: l₂) n) =
      aggregate_documents (l₁ ++ l₂) (get_top_n_document_fids (l₁ ++ l₂) n) := by
  have htf : truthyFid c = none := by simp [truthyFid, h]
  have hfm : (l₁ ++ c :: l₂).filterMap truthyFid =
      (l₁ ++ l₂).filterMap truthyFid := by
    simp [List.filterMap_append, List.filterMap_cons, htf]
  have htop : get_top_n_document_fids (l₁ ++ c :: l₂) n =
      get_top_n_document_fids (l₁ ++ l₂) n := by
    rw [get_top_n_eq, get_top_n_eq, hfm]
  have hhits : ∀ fid, fidHits (l₁ ++ c :: l₂) fid = fidHits (l₁ ++ l₂) fid := by
    intro fid
    simp [fidHits, List.filter_append, List.filter_cons, htf]
  have hvalid : aggregationValid (l₁ ++ c :: l₂) (get_top_n_document_fids (l₁ ++ l₂) n) =
      aggregationValid (l₁ ++ l₂) (get_top_n_document_fids (l₁ ++ l₂) n) := by
    unfold aggregationValid
    refine congrArg _ (funext (fun fid => ?_))
    rw [hhits fid]
  have haggOk : aggregateOk (l₁ ++ c :: l₂) (get_top_n_document_fids (l₁ ++ l₂) n) =
      aggregateOk (l₁ ++ l₂) (get_top_n_document_fids (l₁ ++ l₂) n) := by
    refine Prod.ext_iff.mpr ⟨?_, ?_⟩
    · rw [aggregateOk_fst, aggregateOk_fst]
      refine List.filterMap_congr (fun fid _ => ?_)
      rw [hhits fid]
    · rw [aggregateOk_snd, aggregateOk_snd]
      refine List.filter_congr (fun fid _ => ?_)
      rw [hhits fid]
  refine ⟨htop, ?_⟩
  rw [htop, aggregate_documents_cases, aggregate_documents_cases, hvalid, haggOk]

/-- Witness for C4: an fid-less passage in front of one attributed passage,
top 1. -/
theorem C4_witness :
    (get_top_n_document_fids ([] ++ (⟨"x", []⟩ : Document) ::
        [⟨"t", [("fid", "A")]⟩]) 1 =
      get_top_n_document_fids ([] ++ [⟨"t", [("fid", "A")]⟩]) 1) ∧
    aggregate_documents ([] ++ (⟨"x", []⟩ : Document) :: [⟨"t", [("fid", "A")]⟩])
        (get_top_n_document_fids ([] ++ (⟨"x", []⟩ : Document) ::
          [⟨"t", [("fid", "A")]⟩]) 1) =
      aggregate_documents ([] ++ [⟨"t", [("fid", "A")]⟩])
        (get_top_n_document_fids ([] ++ [⟨"t", [("fid", "A")]⟩]) 1) :=
  C4_missing_fid_passage_ignored [] [⟨"t", [("fid", "A")]⟩] ⟨"x", []⟩ 1 rfl

/-- Claim C5: every record in a successful result of
`get_pcr_records_from_chroma` carries the metadata of the first passage (in
candidate order) with its fid; later passages only contribute their texts
(the record's `page_contents` collects all of that fid's texts in order). -/
theorem C5_metadata_from_first_passage
    (sim : String → Nat → Except PyExc (List Document))
    (skip limit k n : Nat) (q : String) (chunks : List Document)
    (recs : List PCRRecord)
    (hq : ¬ q = "") (hsim : sim q k = Except.ok chunks)
    (hres : (get_pcr_records_from_chroma sim skip limit (some q) k n).1 =
      Except.ok recs) :
    ∀ r ∈ recs, ∃ fid h, (fidHits chunks fid).head? = some h ∧
      r.metadata = h.metadata ∧ PCRRecord.fid r = some fid ∧
      r.page_contents = (fidHits chunks fid).map Document.page_content := by
  by_cases hv : aggregationValid chunks (get_top_n_document_fids chunks n) = true
  case neg =>
    rw [chroma_result sim skip limit k n q chunks hq hsim, if_neg hv] at hres
    exact absurd hres (by simp)
  rw [chroma_result sim skip limit k n q chunks hq hsim, if_pos hv] at hres
  have hrecs := (Except.ok.inj hres).symm
  intro r hr
  rw [hrecs, aggregateOk_fst] at hr
  obtain ⟨fid, _, hf⟩ := List.mem_filterMap.mp hr
  cases hl : (fidHits chunks fid).head? with
  | none => rw [hl] at hf; exact absurd hf (by simp)
  | some hd =>
    rw [hl] at hf
    simp only [Option.map_some', Option.some.injEq] at hf
    refine ⟨fid, hd, hl, ?_, ?_, ?_⟩
    · rw [← hf]; rfl
    · rw [← hf]
      simp only [PCRRecord.fid, finalizeRecord]
      exact truthyFid_metadata_get (head?_hits_truthy hl)
    · rw [← hf]; rfl

/-- Witness for C5 at the same concrete input as C3's, instantiated at the
first record that call produces. -/
theorem C5_witness :
    ∃ fid h,
      (fidHits [⟨"a1", [("fid", "A"), ("pcr_reg_no", "R1")]⟩,
        ⟨"b1", [("fid", "B"), ("pcr_reg_no", "R2")]⟩,
        ⟨"a2", [("fid", "A"), ("pcr_reg_no", "R1")]⟩] fid).head? = some h ∧
      ({ metadata := [("fid", "A"), ("pcr_reg_no", "R1")],
         page_content := some ("a1" ++ chunk_separator ++ "a2"),
         page_contents := ["a1", "a2"] } : PCRRecord).metadata = h.metadata ∧
      PCRRecord.fid { metadata := [("fid", "A"), ("pcr_reg_no", "R1")],
                      page_content := some ("a1" ++ chunk_separator ++ "a2"),
                      page_contents := ["a1", "a2"] } = some fid ∧
      ({ metadata := [("fid", "A"), ("pcr_reg_no", "R1")],
         page_content := some ("a1" ++ chunk_separator ++ "a2"),
         page_contents := ["a1", "a2"] } : PCRRecord).page_contents =
        (fidHits [⟨"a1", [("fid", "A"), ("pcr_reg_no", "R1")]⟩,
          ⟨"b1", [("fid", "B"), ("pcr_reg_no", "R2")]⟩,
          ⟨"a2", [("fid", "A"), ("pcr_reg_no", "R1")]⟩] fid).map
          Document.page_content :=
  C5_metadata_from_first_passage
    (fun _ _ => Except.ok
      [⟨"a1", [("fid", "A"), ("pcr_reg_no", "R1")]⟩,
       ⟨"b1", [("fid", "B"), ("pcr_reg_no", "R2")]⟩,
       ⟨"a2", [("fid", "A"), ("pcr_reg_no", "R1")]⟩])
    0 100 5 1 "q"
    [⟨"a1", [("fid", "A"), ("pcr_reg_no", "R1")]⟩,
     ⟨"b1", [("fid", "B"), ("pcr_reg_no", "R2")]⟩,
     ⟨"a2", [("fid", "A"), ("pcr_reg_no", "R1")]⟩]
    ((aggregateOk
        [⟨"a1", [("fid", "A"), ("pcr_reg_no", "R1")]⟩,
         ⟨"b1", [("fid", "B"), ("pcr_reg_no", "R2")]⟩,
         ⟨"a2", [("fid", "A"), ("pcr_reg_no", "R1")]⟩]
        (get_top_n_document_fids
          [⟨"a1", [("fid", "A"), ("pcr_reg_no", "R1")]⟩,
           ⟨"b1", [("fid", "B"), ("pcr_reg_no", "R2")]⟩,
           ⟨"a2", [("fid", "A"), ("pcr_reg_no", "R1")]⟩]
          1)).1)
    (by decide) rfl (by decide)
    { metadata := [("fid", "A"), ("pcr_reg_no", "R1")],
      page_content := some ("a1" ++ chunk_separator ++ "a2"),
      page_contents := ["a1", "a2"] }
    (by decide)

/-- Claim C6: an empty query string returns the empty list and the upstream
`similarity_search` collaborator is never invoked — for every collaborator
`sim`, the result is `ok []` and the call log (second component) is empty. -/
theorem C6_empty_query_returns_empty_without_upstream_call
    (sim : String → Nat → Except PyExc (List Document))
    (skip limit k_chunks_initial top_n_documents : Nat) :
    get_pcr_records_from_chroma sim skip limit (some "") k_chunks_initial
      top_n_documents = (Except.ok [], []) := rfl

/-- Counterexample to claim C7 as stated: the upstream error does not
propagate unchanged — a `TimeoutError` comes back to the caller as a fresh
generic `Exception` whose message embeds the original text. -/
theorem C7_counterexample :
    (get_pcr_records_from_chroma
        (fun _ _ => Except.error { ty := "TimeoutError", msg := "timed out" })
        0 100 (some "query") 100 10).1 =
      Except.error { ty := "Exception", msg := "資料庫查詢失敗: timed out" } ∧
    (get_pcr_records_from_chroma
        (fun _ _ => Except.error { ty := "TimeoutError", msg := "timed out" })
        0 100 (some "query") 100 10).1 ≠
      Except.error { ty := "TimeoutError", msg := "timed out" } := by
  constructor
  · decide
  · decide

/-- Claim C7 (amended): when the upstream `similarity_search` raises any
error, `get_pcr_records_from_chroma` makes exactly one upstream call (no
retry) and does not swallow the failure: the caller receives an error — a
new generic `Exception` whose message is `資料庫查詢失敗: ` followed by the
original error's message (rather than the original exception unchanged). -/
theorem C7_amended_error_wrapped_not_retried
    (sim : String → Nat → Except PyExc (List Document))
    (skip limit k n : Nat) (q : String) (e : PyExc)
    (hq : ¬ q = "") (he : sim q k = Except.error e) :
    get_pcr_records_from_chroma sim skip limit (some q) k n =
      (Except.error { ty := "Exception", msg := "資料庫查詢失敗: " ++ e.msg },
       [(q, k)]) := by
  simp [get_pcr_records_from_chroma, hq, he]

/-- Witness for the amended C7 at a concrete failing collaborator. -/
theorem C7_witness :
    get_pcr_records_from_chroma
        (fun _ _ => Except.error { ty := "TimeoutError", msg := "boom" })
        0 100 (some "q") 5 3 =
      (Except.error { ty := "Exception", msg := "資料庫查詢失敗: " ++ "boom" },
       [("q", 5)]) :=
  C7_amended_error_wrapped_not_retried
    (fun _ _ => Except.error { ty := "TimeoutError", msg := "boom" })
    0 100 5 3 "q" { ty := "TimeoutError", msg := "boom" } (by decide) rfl

/-- Counterexample to claim C8 as stated: a data-quality anomaly in a
single document CAN fail the whole call — here fid B is selected alongside
the healthy fid A, but B's only passage lacks the required `pcr_reg_no`,
so record construction raises a `ValidationError` that the except clause
wraps and re-raises: the whole call errors and no record is returned even
for the healthy document A. -/
theorem C8_counterexample :
    get_top_n_document_fids
        [⟨"a1", [("fid", "A"), ("pcr_reg_no", "R")]⟩, ⟨"b1", [("fid", "B")]⟩]
        2 = ["A", "B"] ∧
    (get_pcr_records_from_chroma
        (fun _ _ => Except.ok
          [⟨"a1", [("fid", "A"), ("pcr_reg_no", "R")]⟩, ⟨"b1", [("fid", "B")]⟩])
        0 100 (some "q") 5 2).1 =
      Except.error { ty := "Exception",
                     msg := "資料庫查詢失敗: " ++ pyValidationError.msg } := by
  constructor
  · decide
  · decide

/-- Claim C8 (amended): the partial-result policy covers exactly the
zero-passage anomaly: the aggregation step never fails because of a
selected fid with no attributable passages — such fids are skipped and
appended to the warning log while records for all remaining selected fids
are still produced, in order, with the correct aggregated content (the
`Except.ok` branch below, whose second component lists the skipped fids) —
but it does not cover validation failures: when some selected fid's first
passage lacks the required `pcr_reg_no`, the whole aggregation raises a
`ValidationError` and produces nothing. -/
theorem C8_amended_skip_policy_vs_validation_failure (chunks : List Document)
    (top : List String) :
    aggregate_documents chunks top =
      if aggregationValid chunks top = true then
        Except.ok
          (top.filterMap (fun fid => (fidHits chunks fid).head?.map (fun h =>
            finalizeRecord { metadata := h.metadata, page_content := none,
                             page_contents :=
                               (fidHits chunks fid).map Document.page_content })),
           top.filter (fun fid => (fidHits chunks fid).isEmpty))
      else Except.error pyValidationError := by
  rw [aggregate_documents_cases]
  by_cases hv : aggregationValid chunks top = true
  · rw [if_pos hv, if_pos hv]
    refine congrArg Except.ok (Prod.ext_iff.mpr ⟨?_, ?_⟩)
    · exact aggregateOk_fst chunks top
    · exact aggregateOk_snd chunks top
  · rw [if_neg hv, if_neg hv]

/-- Claim C10: the result of `get_pcr_records_from_chroma` does not depend
on `skip` and `limit`: two calls differing only in these pagination
arguments return identical values (and identical upstream call logs). -/
theorem C10_skip_limit_have_no_effect
    (sim : String → Nat → Except PyExc (List Document))
    (skip₁ limit₁ skip₂ limit₂ : Nat) (search : Option String)
    (k_chunks_initial top_n_documents : Nat) :
    get_pcr_records_from_chroma sim skip₁ limit₁ search k_chunks_initial
        top_n_documents =
      get_pcr_records_from_chroma sim skip₂ limit₂ search k_chunks_initial
        top_n_documents := rfl

end ESGBot
